import Mathlib

/-!
# terminalgame: frame buffer, input resolver and scene placement

A shallow embedding of `src/terminalgame.cpp` (functions `handle_input`, `fill`,
`makeScene`, `draw_screen` and the loop of `main`) together with the properties
stated about them.

Conventions of the embedding:
* a C++ `int` is an `Int`; the places where the source does arithmetic that could
  leave the 32-bit range (`--x`, `++x`) go through `wrapInt`;
* `char array[VIEW_PORT_ROW][VIEW_PORT_COL]` is a function from row and column
  indices (`Fin 40`, `Fin 200`) to `Char`; a store `array[r][c] = ch` with `int`
  indices is `writeCell`, which yields `none` when an index is outside the array;
* the operating-system calls (`GetAsyncKeyState`, `rand`) are parameters.
-/

namespace TerminalGame

/-! ## Constants and data -/

/-- Number of rows of the view port (`int const VIEW_PORT_ROW = 40`). -/
abbrev VIEW_PORT_ROW : Nat := 40

/-- Number of columns of the view port (`int const VIEW_PORT_COL = 200`). -/
abbrev VIEW_PORT_COL : Nat := 200

/-- Modelled from the spec: the type `Object` is declared in `header.h`, which is not
part of the sources at hand; the code reads and writes its `int` members `x` and `y`,
and the spec describes an entity as "a static object with integer coordinates x, y". -/
structure Object where
  x : Int
  y : Int
deriving DecidableEq, Repr

/-- The frame buffer `char array[VIEW_PORT_ROW][VIEW_PORT_COL]`. -/
abbrev Grid := Fin VIEW_PORT_ROW → Fin VIEW_PORT_COL → Char

/-- Reduction of an integer to the range of a 32-bit two's-complement `int`. -/
def wrapInt (v : Int) : Int := (v + 2147483648) % 4294967296 - 2147483648

/-! ## `handle_input` -/

/-- The test `GetAsyncKeyState(k) & 0x8000` of the source: the most significant bit
of the 16-bit key state (given as its bit pattern, a number below 65536) is set. -/
def keyDown (state : Nat) : Bool := state &&& 0x8000 != 0

/-- The source's `handle_input(int& x, int& y, bool& quit)`; the references are
passed in and returned, `GetAsyncKeyState` is the key-state snapshot of this call. -/
def handle_input (GetAsyncKeyState : Char → Nat) (x y : Int) (quit : Bool) :
    Int × Int × Bool :=
  let y := if keyDown (GetAsyncKeyState 'W') then wrapInt (y - 1) else y
  let x := if keyDown (GetAsyncKeyState 'A') then wrapInt (x - 1) else x
  let y := if keyDown (GetAsyncKeyState 'S') then wrapInt (y + 1) else y
  let x := if keyDown (GetAsyncKeyState 'D') then wrapInt (x + 1) else x
  let x := if x < 1 then 1 else x
  let x := if x ≥ (VIEW_PORT_COL : Int) - 1 then (VIEW_PORT_COL : Int) - 2 else x
  let y := if y < 1 then 1 else y
  let y := if y ≥ (VIEW_PORT_ROW : Int) - 1 then (VIEW_PORT_ROW : Int) - 2 else y
  let quit := if keyDown (GetAsyncKeyState 'Q') then true else quit
  (x, y, quit)

/-- A finite sequence of `handle_input` calls, one key-state snapshot per call, on
the triple (x, y, quit). -/
def runInputs (inputs : List (Char → Nat)) (s : Int × Int × Bool) : Int × Int × Bool :=
  inputs.foldl (fun s keys => handle_input keys s.1 s.2.1 s.2.2) s

/-- Contribution of a key to an axis: one when held, zero otherwise. -/
def held (b : Bool) : Int := if b then 1 else 0

/-- A key-state snapshot in which exactly the keys of the given list are held. -/
def keysHeld (ks : List Char) : Char → Nat := fun c => if c ∈ ks then 0x8000 else 0

/-! ## `fill` -/

/-- The store `array[r][c] = ch` with `int` indices: defined only when the row index
is in [0, VIEW_PORT_ROW) and the column index in [0, VIEW_PORT_COL). -/
def writeCell (array : Grid) (r c : Int) (ch : Char) : Option Grid :=
  if 0 ≤ r ∧ r < (VIEW_PORT_ROW : Int) ∧ 0 ≤ c ∧ c < (VIEW_PORT_COL : Int) then
    some (fun i j => if (i.val : Int) = r ∧ (j.val : Int) = c then ch else array i j)
  else
    none

/-- The inner loop `for (int j = 0; j < VIEW_PORT_COL; j++)` of the initialisation in
`fill`, for the row `i`. -/
def fillRow (array : Grid) (i : Int) : Option Grid :=
  (List.range VIEW_PORT_COL).foldlM (fun (array : Grid) (j : Nat) =>
    if i = 0 ∨ i = (VIEW_PORT_ROW : Int) - 1 ∨ (j : Int) = 0 ∨
        (j : Int) = (VIEW_PORT_COL : Int) - 1 then
      writeCell array i j '#'
    else
      writeCell array i j ' ') array

/-- The first loop nest of `fill`: borders and spaces. -/
def fillInit (array : Grid) : Option Grid :=
  (List.range VIEW_PORT_ROW).foldlM (fun (array : Grid) (i : Nat) => fillRow array i) array

/-- The second loop of `fill`: `for (int i = 0; i < 10; i++)` over the objects. -/
def placeObjects (objects : Fin 10 → Object) (array : Grid) : Option Grid :=
  (List.finRange 10).foldlM (fun (array : Grid) (i : Fin 10) =>
    if (objects i).x > 0 ∧ (objects i).x < (VIEW_PORT_COL : Int) ∧
        (objects i).y > 0 ∧ (objects i).y < (VIEW_PORT_ROW : Int) then
      writeCell array (objects i).y (objects i).x 'X'
    else
      some array) array

/-- The source's `fill(objects, array, x, y)`: the array is passed in and the
rewritten array returned; `none` when some store falls outside the array. -/
def fill (objects : Fin 10 → Object) (array : Grid) (x y : Int) : Option Grid := do
  let array ← fillInit array
  let array ← placeObjects objects array
  writeCell array y x '@'

/-! ## `draw_screen` and the loop of `main` -/

/-- One `mvaddch(row, col, glyph)` call together with the colour pair switched on
around it (0 when none is). -/
structure Put where
  row : Nat
  col : Nat
  glyph : Char
  pair : Nat
deriving DecidableEq, Repr

/-- The source's `draw_screen(array)`: the sequence of `mvaddch` calls it makes
(`has_colors` is the answer of the curses call of that name); the footer text printed
below the grid is left out. -/
def draw_screen (has_colors : Bool) (array : Grid) : List Put :=
  (List.finRange VIEW_PORT_ROW).flatMap fun i =>
    (List.finRange VIEW_PORT_COL).map fun j =>
      if array i j = '@' ∧ has_colors = true then
        { row := i.val, col := j.val, glyph := array i j, pair := 1 }
      else if array i j = 'X' ∧ has_colors = true then
        { row := i.val, col := j.val, glyph := array i j, pair := 2 }
      else
        { row := i.val, col := j.val, glyph := array i j, pair := 0 }

/-- The local variables of `main` that live across iterations of the game loop. -/
structure Game where
  array : Grid
  x : Int
  y : Int
  quit : Bool

/-- The initial values of `main`: `x = 12`, `y = 15`, `quit = false`; the array
starts with arbitrary contents. -/
def initialGame (array : Grid) : Game := { array := array, x := 12, y := 15, quit := false }

/-- One iteration of the `while (!quit)` loop of `main`, in the order of the source:
`fill`, `draw_screen`, `handle_input` (then `refresh` and the sleep). The result is
the drawing made in this iteration and the variables after it. -/
def loopBody (objects : Fin 10 → Object) (has_colors : Bool) (keys : Char → Nat)
    (g : Game) : Option (List Put × Game) :=
  (fill objects g.array g.x g.y).map fun array =>
    let screen := draw_screen has_colors array
    let r := handle_input keys g.x g.y g.quit
    (screen, { array := array, x := r.1, y := r.2.1, quit := r.2.2 })

/-- The game loop `while (!quit) { ... }` run against a finite schedule of key-state
snapshots, one per iteration; it stops when `quit` is set or the schedule ends, and
returns the drawings of the iterations made and the final variables. -/
def mainLoop (objects : Fin 10 → Object) (has_colors : Bool) :
    List (Char → Nat) → Game → Option (List (List Put) × Game)
  | [], g => some ([], g)
  | keys :: rest, g =>
    if g.quit = true then some ([], g)
    else
      (loopBody objects has_colors keys g).bind fun r =>
        (mainLoop objects has_colors rest r.2).map fun rs => (r.1 :: rs.1, rs.2)

/-! ## `makeScene` -/

/-- The expression `1 + rand() % (VIEW_PORT_COL - 2)` as a function of the value
`rand()` returned (`%` of C++ truncates towards zero). -/
def sceneX (r : Int) : Int := 1 + r.tmod ((VIEW_PORT_COL : Int) - 2)

/-- The expression `1 + rand() % (VIEW_PORT_ROW - 2)` as a function of the value
`rand()` returned. -/
def sceneY (r : Int) : Int := 1 + r.tmod ((VIEW_PORT_ROW : Int) - 2)

/-- The source's `makeScene(objects)`. `rand n` is the value returned by the call
number `n` of `rand()` after `srand(time(0))`; the loop carries the array and the
number of calls made so far. -/
def makeScene (rand : Nat → Int) (objects : Fin 10 → Object) : Fin 10 → Object :=
  ((List.finRange 10).foldl (fun (st : (Fin 10 → Object) × Nat) (i : Fin 10) =>
      let x := sceneX (rand st.2)
      let y := sceneY (rand (st.2 + 1))
      (Function.update st.1 i { x := x, y := y }, st.2 + 2))
    (objects, 0)).1

/-- Number of values r in 0..RAND_MAX that the map `f` sends to `v`. -/
def preimages (f : Int → Int) (RAND_MAX : Nat) (v : Int) : Nat :=
  Nat.count (fun r : Nat => f (r : Int) = v) (RAND_MAX + 1)

/-! ## Closed form of the grid built by `fill` -/

/-- The glyph the first loop nest of `fill` stores at row `i`, column `j`. -/
def initGlyph (i j : Nat) : Char :=
  if i = 0 ∨ i = VIEW_PORT_ROW - 1 ∨ j = 0 ∨ j = VIEW_PORT_COL - 1 then '#' else ' '

/-- The glyph the two loops and the final store of `fill` leave at row `i`, column `j`
for the objects `objects` and the player at (x, y). -/
def fillCell (objects : Fin 10 → Object) (x y : Int) (i : Fin VIEW_PORT_ROW)
    (j : Fin VIEW_PORT_COL) : Char :=
  if (i.val : Int) = y ∧ (j.val : Int) = x then '@'
  else if ∃ k : Fin 10, ((objects k).x > 0 ∧ (objects k).x < (VIEW_PORT_COL : Int) ∧
      (objects k).y > 0 ∧ (objects k).y < (VIEW_PORT_ROW : Int)) ∧
      (i.val : Int) = (objects k).y ∧ (j.val : Int) = (objects k).x then 'X'
  else if i.val = 0 ∨ i.val = VIEW_PORT_ROW - 1 ∨ j.val = 0 ∨ j.val = VIEW_PORT_COL - 1 then '#'
  else ' '

/-! ## Properties of `handle_input` -/

theorem wrapInt_of_range (v : Int) (h1 : -2147483648 ≤ v) (h2 : v ≤ 2147483647) :
    wrapInt v = v := by
  unfold wrapInt
  omega

/-- The coordinates returned by `handle_input` lie in the interior whenever the
incoming ones do. -/
theorem handle_input_interior (keys : Char → Nat) (x y : Int) (quit : Bool)
    (hx : 1 ≤ x ∧ x ≤ 198) (hy : 1 ≤ y ∧ y ≤ 38) :
    1 ≤ (handle_input keys x y quit).1 ∧ (handle_input keys x y quit).1 ≤ 198 ∧
    1 ≤ (handle_input keys x y quit).2.1 ∧ (handle_input keys x y quit).2.1 ≤ 38 := by
  simp only [handle_input, VIEW_PORT_COL, VIEW_PORT_ROW]
  refine ⟨?_, ?_, ?_, ?_⟩ <;> (split_ifs <;> omega)

theorem runInputs_interior (inputs : List (Char → Nat)) :
    ∀ s : Int × Int × Bool, (1 ≤ s.1 ∧ s.1 ≤ 198) → (1 ≤ s.2.1 ∧ s.2.1 ≤ 38) →
      1 ≤ (runInputs inputs s).1 ∧ (runInputs inputs s).1 ≤ 198 ∧
      1 ≤ (runInputs inputs s).2.1 ∧ (runInputs inputs s).2.1 ≤ 38 := by
  induction inputs with
  | nil => intro s hx hy; exact ⟨hx.1, hx.2, hy.1, hy.2⟩
  | cons k ks ih =>
    intro s hx hy
    have h := handle_input_interior k s.1 s.2.1 s.2.2 hx hy
    exact ih (handle_input k s.1 s.2.1 s.2.2) ⟨h.1, h.2.1⟩ ⟨h.2.2.1, h.2.2.2⟩

/-- C2: starting from the initial player coordinate (12,15), after any finite
sequence of `handle_input` calls with arbitrary key states the player coordinate
satisfies 1 ≤ x ≤ COLS-2 and 1 ≤ y ≤ ROWS-2 (so it is never 0, COLS-1, ROWS-1 or
negative). -/
theorem player_stays_in_interior (inputs : List (Char → Nat)) :
    1 ≤ (runInputs inputs (12, 15, false)).1 ∧
    (runInputs inputs (12, 15, false)).1 ≤ (VIEW_PORT_COL : Int) - 2 ∧
    1 ≤ (runInputs inputs (12, 15, false)).2.1 ∧
    (runInputs inputs (12, 15, false)).2.1 ≤ (VIEW_PORT_ROW : Int) - 2 ∧
    (runInputs inputs (12, 15, false)).1 ≠ 0 ∧
    (runInputs inputs (12, 15, false)).1 ≠ (VIEW_PORT_COL : Int) - 1 ∧
    (runInputs inputs (12, 15, false)).2.1 ≠ 0 ∧
    (runInputs inputs (12, 15, false)).2.1 ≠ (VIEW_PORT_ROW : Int) - 1 := by
  have h := runInputs_interior inputs (12, 15, false) (by decide) (by decide)
  simp only [VIEW_PORT_COL, VIEW_PORT_ROW, Nat.cast_ofNat]
  omega

/-- C3: for every player coordinate whose neighbours x±1, y±1 are representable and
every combination of held keys, `handle_input` returns
x' = min (max (x + [D held] - [A held]) 1) (COLS-2) and
y' = min (max (y + [S held] - [W held]) 1) (ROWS-2). -/
theorem handle_input_formula (keys : Char → Nat) (x y : Int) (quit : Bool)
    (hx : -2147483648 < x ∧ x < 2147483647) (hy : -2147483648 < y ∧ y < 2147483647) :
    (handle_input keys x y quit).1 =
      min (max (x + held (keyDown (keys 'D')) - held (keyDown (keys 'A'))) 1)
        ((VIEW_PORT_COL : Int) - 2) ∧
    (handle_input keys x y quit).2.1 =
      min (max (y + held (keyDown (keys 'S')) - held (keyDown (keys 'W'))) 1)
        ((VIEW_PORT_ROW : Int) - 2) := by
  have w1 : ∀ v : Int, -2147483648 ≤ v → v ≤ 2147483647 → wrapInt v = v :=
    wrapInt_of_range
  simp only [handle_input, VIEW_PORT_COL, VIEW_PORT_ROW, held, Nat.cast_ofNat]
  constructor
  · cases keyDown (keys 'D') <;> cases keyDown (keys 'A') <;>
      simp only [if_true, if_false, Bool.false_eq_true] <;>
      (try rw [w1 (x - 1) (by omega) (by omega)]) <;>
      (try rw [w1 (x + 1) (by omega) (by omega)]) <;>
      (try rw [w1 (x - 1 + 1) (by omega) (by omega)]) <;>
      (split_ifs <;> omega)
  · cases keyDown (keys 'S') <;> cases keyDown (keys 'W') <;>
      simp only [if_true, if_false, Bool.false_eq_true] <;>
      (try rw [w1 (y - 1) (by omega) (by omega)]) <;>
      (try rw [w1 (y + 1) (by omega) (by omega)]) <;>
      (try rw [w1 (y - 1 + 1) (by omega) (by omega)]) <;>
      (split_ifs <;> omega)

/-- Instance of C3 at the initial coordinate (12,15) with W (up) and A (left) held:
the result is (11,14). -/
theorem handle_input_formula_witness :
    ((-2147483648 : Int) < 12 ∧ (12 : Int) < 2147483647) ∧
    ((-2147483648 : Int) < 15 ∧ (15 : Int) < 2147483647) ∧
    (handle_input (keysHeld ['W', 'A']) 12 15 false).1 = 11 ∧
    (handle_input (keysHeld ['W', 'A']) 12 15 false).2.1 = 14 := by
  have h := handle_input_formula (keysHeld ['W', 'A']) 12 15 false
    (by decide) (by decide)
  refine ⟨by decide, by decide, ?_, ?_⟩
  · rw [h.1]; decide
  · rw [h.2]; decide

theorem runInputs_quit_sticky (inputs : List (Char → Nat)) :
    ∀ s : Int × Int × Bool, s.2.2 = true → (runInputs inputs s).2.2 = true := by
  induction inputs with
  | nil => intro s h; exact h
  | cons k ks ih =>
    intro s h
    refine ih (handle_input k s.1 s.2.1 s.2.2) ?_
    simp [handle_input, h]

/-- C6: `handle_input` leaves quit' = quit OR (Q held); consequently a quit flag that
is true stays true over every further sequence of calls, so along any run that starts
from quit = false the flag changes at most once, from false to true. -/
theorem quit_flag_one_way :
    (∀ (keys : Char → Nat) (x y : Int) (quit : Bool),
      (handle_input keys x y quit).2.2 = (quit || keyDown (keys 'Q'))) ∧
    (∀ (inputs more : List (Char → Nat)) (x y : Int),
      (runInputs inputs (x, y, false)).2.2 = true →
      (runInputs (inputs ++ more) (x, y, false)).2.2 = true) := by
  constructor
  · intro keys x y quit
    simp only [handle_input]
    cases keyDown (keys 'Q') <;> cases quit <;> rfl
  · intro inputs more x y h
    have : runInputs (inputs ++ more) (x, y, false)
        = runInputs more (runInputs inputs (x, y, false)) := by
      simp [runInputs, List.foldl_append]
    rw [this]
    exact runInputs_quit_sticky more _ h

/-- Instance of C6: Q held in the first call sets the flag, and it is still set after
a further call with no key held. -/
theorem quit_flag_one_way_witness :
    (runInputs [keysHeld ['Q']] (12, 15, false)).2.2 = true ∧
    (runInputs ([keysHeld ['Q']] ++ [keysHeld []]) (12, 15, false)).2.2 = true :=
  ⟨by decide, quit_flag_one_way.2 [keysHeld ['Q']] [keysHeld []] 12 15 (by decide)⟩

/-! ## The grid built by `fill` -/

theorem writeCell_inBounds (array : Grid) (r c : Int) (ch : Char)
    (h : 0 ≤ r ∧ r < (VIEW_PORT_ROW : Int) ∧ 0 ≤ c ∧ c < (VIEW_PORT_COL : Int)) :
    writeCell array r c ch =
      some (fun i j => if (i.val : Int) = r ∧ (j.val : Int) = c then ch else array i j) := by
  unfold writeCell
  rw [if_pos h]

theorem writeCell_eq_none (array : Grid) (r c : Int) (ch : Char)
    (h : ¬ (0 ≤ r ∧ r < (VIEW_PORT_ROW : Int) ∧ 0 ≤ c ∧ c < (VIEW_PORT_COL : Int))) :
    writeCell array r c ch = none := by
  unfold writeCell
  rw [if_neg h]

theorem fillRow_body (array : Grid) (i j : Nat) (hi : i < VIEW_PORT_ROW)
    (hj : j < VIEW_PORT_COL) :
    (if (i : Int) = 0 ∨ (i : Int) = (VIEW_PORT_ROW : Int) - 1 ∨ (j : Int) = 0 ∨
        (j : Int) = (VIEW_PORT_COL : Int) - 1 then
      writeCell array i j '#'
    else
      writeCell array i j ' ') =
    some (fun i' j' => if i'.val = i ∧ j'.val = j then initGlyph i j else array i' j') := by
  have hb : 0 ≤ (i : Int) ∧ (i : Int) < (VIEW_PORT_ROW : Int) ∧ 0 ≤ (j : Int) ∧
      (j : Int) < (VIEW_PORT_COL : Int) := by
    refine ⟨by omega, by exact_mod_cast hi, by omega, by exact_mod_cast hj⟩
  have hc : ((i : Int) = 0 ∨ (i : Int) = (VIEW_PORT_ROW : Int) - 1 ∨ (j : Int) = 0 ∨
        (j : Int) = (VIEW_PORT_COL : Int) - 1) ↔
      (i = 0 ∨ i = VIEW_PORT_ROW - 1 ∨ j = 0 ∨ j = VIEW_PORT_COL - 1) := by
    simp only [VIEW_PORT_ROW, VIEW_PORT_COL]
    omega
  unfold initGlyph
  by_cases h : (i = 0 ∨ i = VIEW_PORT_ROW - 1 ∨ j = 0 ∨ j = VIEW_PORT_COL - 1)
  · rw [if_pos (hc.2 h), if_pos h, writeCell_inBounds _ _ _ _ hb]
    congr 1; funext i' j'
    simp only [Nat.cast_inj]
  · rw [if_neg (fun h' => h (hc.1 h')), if_neg h, writeCell_inBounds _ _ _ _ hb]
    congr 1; funext i' j'
    simp only [Nat.cast_inj]

theorem fillRow_loop (i : Nat) (hi : i < VIEW_PORT_ROW) (l : List Nat) :
    ∀ array : Grid, (∀ j ∈ l, j < VIEW_PORT_COL) →
      l.foldlM (fun (array : Grid) (j : Nat) =>
        if (i : Int) = 0 ∨ (i : Int) = (VIEW_PORT_ROW : Int) - 1 ∨ (j : Int) = 0 ∨
            (j : Int) = (VIEW_PORT_COL : Int) - 1 then
          writeCell array i j '#'
        else
          writeCell array i j ' ') array =
      some (fun i' j' => if i'.val = i ∧ j'.val ∈ l then initGlyph i j'.val else array i' j') := by
  induction l with
  | nil => intro array _; simp
  | cons j l ih =>
    intro array hl
    rw [List.foldlM_cons, fillRow_body array i j hi (hl j (List.mem_cons_self _ _))]
    simp only [Option.bind_eq_bind, Option.some_bind]
    rw [ih _ (fun j' hj' => hl j' (List.mem_cons_of_mem _ hj'))]
    congr 1; funext i' j'
    by_cases h1 : i'.val = i
    · by_cases h2 : j'.val ∈ l
      · simp [h1, h2]
      · by_cases h3 : j'.val = j
        · simp [h1, h3]
        · simp [h1, h2, h3]
    · simp [h1]

theorem fillRow_eq (array : Grid) (i : Nat) (hi : i < VIEW_PORT_ROW) :
    fillRow array i =
      some (fun i' j' => if i'.val = i then initGlyph i j'.val else array i' j') := by
  unfold fillRow
  rw [fillRow_loop i hi (List.range VIEW_PORT_COL) array (fun j hj => List.mem_range.1 hj)]
  congr 1; funext i' j'
  simp [List.mem_range, j'.isLt]

theorem fillInit_loop (l : List Nat) :
    ∀ array : Grid, (∀ i ∈ l, i < VIEW_PORT_ROW) →
      l.foldlM (fun (array : Grid) (i : Nat) => fillRow array i) array =
      some (fun i' j' => if i'.val ∈ l then initGlyph i'.val j'.val else array i' j') := by
  induction l with
  | nil => intro array _; simp
  | cons i l ih =>
    intro array hl
    rw [List.foldlM_cons, fillRow_eq array i (hl i (List.mem_cons_self _ _))]
    simp only [Option.bind_eq_bind, Option.some_bind]
    rw [ih _ (fun i' hi' => hl i' (List.mem_cons_of_mem _ hi'))]
    congr 1; funext i' j'
    by_cases h1 : i'.val ∈ l
    · simp [h1]
    · by_cases h2 : i'.val = i
      · simp [h2]
      · simp [h1, h2]

theorem fillInit_eq (array : Grid) :
    fillInit array = some (fun i j => initGlyph i.val j.val) := by
  unfold fillInit
  rw [fillInit_loop (List.range VIEW_PORT_ROW) array (fun i hi => List.mem_range.1 hi)]
  congr 1; funext i' j'
  simp [List.mem_range, i'.isLt]


theorem placeObjects_loop (objects : Fin 10 → Object) (l : List (Fin 10)) :
    ∀ array : Grid,
      l.foldlM (fun (array : Grid) (i : Fin 10) =>
        if (objects i).x > 0 ∧ (objects i).x < (VIEW_PORT_COL : Int) ∧
            (objects i).y > 0 ∧ (objects i).y < (VIEW_PORT_ROW : Int) then
          writeCell array (objects i).y (objects i).x 'X'
        else
          some array) array =
      some (fun i j => if ∃ k ∈ l, ((objects k).x > 0 ∧ (objects k).x < (VIEW_PORT_COL : Int) ∧
          (objects k).y > 0 ∧ (objects k).y < (VIEW_PORT_ROW : Int)) ∧
          (i.val : Int) = (objects k).y ∧ (j.val : Int) = (objects k).x then 'X'
        else array i j) := by
  induction l with
  | nil => intro array; simp
  | cons k l ih =>
    intro array
    rw [List.foldlM_cons]
    by_cases hk : (objects k).x > 0 ∧ (objects k).x < (VIEW_PORT_COL : Int) ∧
        (objects k).y > 0 ∧ (objects k).y < (VIEW_PORT_ROW : Int)
    · rw [if_pos hk, writeCell_inBounds _ _ _ _ ⟨by omega, hk.2.2.2, by omega, hk.2.1⟩]
      simp only [Option.bind_eq_bind, Option.some_bind]
      rw [ih]
      congr 1; funext i j
      by_cases h1 : ∃ k' ∈ l, ((objects k').x > 0 ∧ (objects k').x < (VIEW_PORT_COL : Int) ∧
          (objects k').y > 0 ∧ (objects k').y < (VIEW_PORT_ROW : Int)) ∧
          (i.val : Int) = (objects k').y ∧ (j.val : Int) = (objects k').x
      · have h2 : ∃ k' ∈ k :: l, ((objects k').x > 0 ∧ (objects k').x < (VIEW_PORT_COL : Int) ∧
            (objects k').y > 0 ∧ (objects k').y < (VIEW_PORT_ROW : Int)) ∧
            (i.val : Int) = (objects k').y ∧ (j.val : Int) = (objects k').x := by
          obtain ⟨k', hk', h⟩ := h1
          exact ⟨k', List.mem_cons_of_mem _ hk', h⟩
        rw [if_pos h1, if_pos h2]
      · rw [if_neg h1]
        by_cases h3 : (i.val : Int) = (objects k).y ∧ (j.val : Int) = (objects k).x
        · rw [if_pos h3, if_pos ⟨k, List.mem_cons_self _ _, hk, h3⟩]
        · rw [if_neg h3, if_neg]
          rintro ⟨k', hk', h⟩
          rcases List.mem_cons.1 hk' with rfl | hm
          · exact h3 h.2
          · exact h1 ⟨k', hm, h⟩
    · rw [if_neg hk]
      simp only [Option.bind_eq_bind, Option.some_bind]
      rw [ih]
      congr 1; funext i j
      by_cases h1 : ∃ k' ∈ l, ((objects k').x > 0 ∧ (objects k').x < (VIEW_PORT_COL : Int) ∧
          (objects k').y > 0 ∧ (objects k').y < (VIEW_PORT_ROW : Int)) ∧
          (i.val : Int) = (objects k').y ∧ (j.val : Int) = (objects k').x
      · have h2 : ∃ k' ∈ k :: l, ((objects k').x > 0 ∧ (objects k').x < (VIEW_PORT_COL : Int) ∧
            (objects k').y > 0 ∧ (objects k').y < (VIEW_PORT_ROW : Int)) ∧
            (i.val : Int) = (objects k').y ∧ (j.val : Int) = (objects k').x := by
          obtain ⟨k', hk', h⟩ := h1
          exact ⟨k', List.mem_cons_of_mem _ hk', h⟩
        rw [if_pos h1, if_pos h2]
      · rw [if_neg h1, if_neg]
        rintro ⟨k', hk', h⟩
        rcases List.mem_cons.1 hk' with rfl | hm
        · exact hk h.1
        · exact h1 ⟨k', hm, h⟩

theorem placeObjects_eq (objects : Fin 10 → Object) (array : Grid) :
    placeObjects objects array =
      some (fun i j => if ∃ k : Fin 10, ((objects k).x > 0 ∧ (objects k).x < (VIEW_PORT_COL : Int) ∧
          (objects k).y > 0 ∧ (objects k).y < (VIEW_PORT_ROW : Int)) ∧
          (i.val : Int) = (objects k).y ∧ (j.val : Int) = (objects k).x then 'X'
        else array i j) := by
  unfold placeObjects
  rw [placeObjects_loop]
  congr 1; funext i j
  simp only [List.mem_finRange, true_and]

/-- With the player inside the array, `fill` succeeds and builds the grid `fillCell`,
whatever the array held before. -/
theorem fill_eq (objects : Fin 10 → Object) (array : Grid) (x y : Int)
    (h : 0 ≤ y ∧ y < (VIEW_PORT_ROW : Int) ∧ 0 ≤ x ∧ x < (VIEW_PORT_COL : Int)) :
    fill objects array x y = some (fillCell objects x y) := by
  unfold fill
  simp only [Option.bind_eq_bind, fillInit_eq, Option.some_bind, placeObjects_eq]
  rw [writeCell_inBounds _ _ _ _ h]
  congr 1

/-- With the player outside the array, `fill` makes a store outside the array. -/
theorem fill_eq_none (objects : Fin 10 → Object) (array : Grid) (x y : Int)
    (h : ¬ (0 ≤ y ∧ y < (VIEW_PORT_ROW : Int) ∧ 0 ≤ x ∧ x < (VIEW_PORT_COL : Int))) :
    fill objects array x y = none := by
  unfold fill
  simp only [Option.bind_eq_bind, fillInit_eq, Option.some_bind, placeObjects_eq]
  exact writeCell_eq_none _ _ _ _ h


/-- An entity at x = 7, y = 39 (the last row) is drawn on the border row 39. -/
theorem fill_object_on_last_row :
    (fill (fun _ => { x := 7, y := 39 }) (fun _ _ => ' ') 12 15).map
      (fun g => g ⟨39, by decide⟩ ⟨7, by decide⟩) = some 'X' := by
  rw [fill_eq _ _ _ _ (by decide)]
  simp [fillCell]

/-- On a border cell, with the player in the interior, the grid built by `fill` holds
the object glyph when an entity that passes the guard of `fill` lies on the cell, and
the border glyph otherwise. -/
theorem fillCell_border (objects : Fin 10 → Object) (x y : Int)
    (hp : 1 ≤ x ∧ x ≤ (VIEW_PORT_COL : Int) - 2 ∧ 1 ≤ y ∧ y ≤ (VIEW_PORT_ROW : Int) - 2)
    (i : Fin VIEW_PORT_ROW) (j : Fin VIEW_PORT_COL)
    (hb : i.val = 0 ∨ i.val = VIEW_PORT_ROW - 1 ∨ j.val = 0 ∨ j.val = VIEW_PORT_COL - 1) :
    fillCell objects x y i j =
      if ∃ k : Fin 10, ((objects k).x > 0 ∧ (objects k).x < (VIEW_PORT_COL : Int) ∧
          (objects k).y > 0 ∧ (objects k).y < (VIEW_PORT_ROW : Int)) ∧
          (i.val : Int) = (objects k).y ∧ (j.val : Int) = (objects k).x then 'X'
      else '#' := by
  unfold fillCell
  have hi := i.isLt
  have hj := j.isLt
  rw [if_neg (by simp only [VIEW_PORT_COL, VIEW_PORT_ROW, Nat.cast_ofNat] at hp hb ⊢; omega),
    if_pos hb]

/-- C4: for every ten entities, every player coordinate (px,py) in the interior and
every interior cell (i,j), the grid built by `fill` holds at (i,j) the player glyph
if (j,i) = (px,py), otherwise the object glyph if some entity has x = j and y = i,
otherwise the empty glyph. -/
theorem fill_interior_cell (objects : Fin 10 → Object) (array : Grid) (px py : Int)
    (i : Fin VIEW_PORT_ROW) (j : Fin VIEW_PORT_COL)
    (hp : 1 ≤ px ∧ px ≤ (VIEW_PORT_COL : Int) - 2 ∧ 1 ≤ py ∧
      py ≤ (VIEW_PORT_ROW : Int) - 2)
    (hi : 0 < i.val ∧ i.val < VIEW_PORT_ROW - 1)
    (hj : 0 < j.val ∧ j.val < VIEW_PORT_COL - 1) :
    ∃ g, fill objects array px py = some g ∧
      g i j =
        if (j.val : Int) = px ∧ (i.val : Int) = py then '@'
        else if ∃ k, (objects k).x = (j.val : Int) ∧ (objects k).y = (i.val : Int) then 'X'
        else ' ' := by
  refine ⟨fillCell objects px py, fill_eq _ _ _ _ ?_, ?_⟩
  · simp only [VIEW_PORT_COL, VIEW_PORT_ROW] at hp ⊢; omega
  · simp only [fillCell]
    simp only [VIEW_PORT_COL, VIEW_PORT_ROW, Nat.cast_ofNat] at hp hi hj ⊢
    by_cases h1 : (j.val : Int) = px ∧ (i.val : Int) = py
    · rw [if_pos h1, if_pos ⟨h1.2, h1.1⟩]
    · rw [if_neg h1, if_neg (fun h => h1 ⟨h.2, h.1⟩)]
      by_cases h2 : ∃ k, (objects k).x = (j.val : Int) ∧ (objects k).y = (i.val : Int)
      · rw [if_pos h2, if_pos]
        obtain ⟨k, hx, hy⟩ := h2
        exact ⟨k, by omega, by omega, by omega⟩
      · rw [if_neg h2, if_neg, if_neg (by omega)]
        rintro ⟨k, -, hy, hx⟩
        exact h2 ⟨k, hx.symm, hy.symm⟩

/-- Instance of C4: player at (12,15), all entities at (3,4); the cell of row 4,
column 3 is an interior cell. -/
theorem fill_interior_cell_witness :
    ∃ g, fill (fun _ => { x := 3, y := 4 }) (fun _ _ => '?') 12 15 = some g ∧
      g ⟨4, by decide⟩ ⟨3, by decide⟩ = 'X' := by
  obtain ⟨g, hg, hc⟩ := fill_interior_cell (fun _ => { x := 3, y := 4 }) (fun _ _ => '?')
    12 15 ⟨4, by decide⟩ ⟨3, by decide⟩ (by decide) (by decide) (by decide)
  refine ⟨g, hg, ?_⟩
  rw [hc]
  simp

/-- C5: for every ten entities with arbitrary integer coordinates and every player
coordinate with 0 ≤ x < COLS and 0 ≤ y < ROWS, `fill` returns an array: no store it
makes has an index outside the array. -/
theorem fill_total (objects : Fin 10 → Object) (array : Grid) (x y : Int)
    (hx : 0 ≤ x ∧ x < (VIEW_PORT_COL : Int)) (hy : 0 ≤ y ∧ y < (VIEW_PORT_ROW : Int)) :
    ∃ g, fill objects array x y = some g :=
  ⟨fillCell objects x y, fill_eq _ _ _ _ ⟨hy.1, hy.2, hx.1, hx.2⟩⟩

/-- Instance of C5: entities far outside the grid, player in the corner (0,0). -/
theorem fill_total_witness :
    ∃ g, fill (fun _ => { x := -5, y := 100000 }) (fun _ _ => ' ') 0 0 = some g :=
  fill_total (fun _ => { x := -5, y := 100000 }) (fun _ _ => ' ') 0 0
    (by decide) (by decide)

/-- C8: for every entity list and in-bounds player coordinate and any two prior
contents of the array, `fill` leaves the same array; it depends only on the entities
and the player coordinate, and calling it again on its own result with the same
inputs gives that result back. -/
theorem fill_independent_of_prior (objects : Fin 10 → Object) (a1 a2 : Grid) (x y : Int)
    (hx : 0 ≤ x ∧ x < (VIEW_PORT_COL : Int)) (hy : 0 ≤ y ∧ y < (VIEW_PORT_ROW : Int)) :
    ∃ g, fill objects a1 x y = some g ∧ fill objects a2 x y = some g ∧
      fill objects g x y = some g := by
  have h : 0 ≤ y ∧ y < (VIEW_PORT_ROW : Int) ∧ 0 ≤ x ∧ x < (VIEW_PORT_COL : Int) :=
    ⟨hy.1, hy.2, hx.1, hx.2⟩
  exact ⟨fillCell objects x y, fill_eq _ _ _ _ h, fill_eq _ _ _ _ h, fill_eq _ _ _ _ h⟩

/-- Instance of C8: a blank array and an array full of question marks. -/
theorem fill_independent_of_prior_witness :
    ∃ g, fill (fun _ => { x := 3, y := 4 }) (fun _ _ => ' ') 12 15 = some g ∧
      fill (fun _ => { x := 3, y := 4 }) (fun _ _ => '?') 12 15 = some g ∧
      fill (fun _ => { x := 3, y := 4 }) g 12 15 = some g :=
  fill_independent_of_prior (fun _ => { x := 3, y := 4 }) (fun _ _ => ' ')
    (fun _ _ => '?') 12 15 (by decide) (by decide)


/-! ## `draw_screen` and the loop body -/

theorem mem_draw_screen (has_colors : Bool) (array : Grid) (i : Fin VIEW_PORT_ROW)
    (j : Fin VIEW_PORT_COL) :
    ∃ p ∈ draw_screen has_colors array, p.row = i.val ∧ p.col = j.val ∧
      p.glyph = array i j := by
  unfold draw_screen
  simp only [List.mem_flatMap, List.mem_map, List.mem_finRange, true_and]
  by_cases h1 : array i j = '@' ∧ has_colors = true
  · exact ⟨_, ⟨i, j, rfl⟩, by rw [if_pos h1]; exact ⟨rfl, rfl, rfl⟩⟩
  · by_cases h2 : array i j = 'X' ∧ has_colors = true
    · exact ⟨_, ⟨i, j, rfl⟩, by rw [if_neg h1, if_pos h2]; exact ⟨rfl, rfl, rfl⟩⟩
    · exact ⟨_, ⟨i, j, rfl⟩, by rw [if_neg h1, if_neg h2]; exact ⟨rfl, rfl, rfl⟩⟩

theorem glyph_of_mem_draw_screen (has_colors : Bool) (array : Grid) (p : Put)
    (hp : p ∈ draw_screen has_colors array) :
    ∃ (i : Fin VIEW_PORT_ROW) (j : Fin VIEW_PORT_COL), p.row = i.val ∧ p.col = j.val ∧
      p.glyph = array i j := by
  unfold draw_screen at hp
  simp only [List.mem_flatMap, List.mem_map, List.mem_finRange, true_and] at hp
  obtain ⟨i, j, rfl⟩ := hp
  refine ⟨i, j, ?_⟩
  split_ifs <;> exact ⟨rfl, rfl, rfl⟩

/-- The drawing determines the array drawn. -/
theorem draw_screen_injective (has_colors : Bool) (a b : Grid)
    (h : draw_screen has_colors a = draw_screen has_colors b) : a = b := by
  funext i j
  obtain ⟨p, hp, hr, hc, hg⟩ := mem_draw_screen has_colors a i j
  rw [h] at hp
  obtain ⟨i', j', hr', hc', hg'⟩ := glyph_of_mem_draw_screen has_colors b p hp
  have hi : i = i' := Fin.ext (by omega)
  have hj : j = j' := Fin.ext (by omega)
  subst hi; subst hj
  rw [← hg, hg']

theorem loopBody_eq (objects : Fin 10 → Object) (has_colors : Bool) (keys : Char → Nat)
    (g : Game) (h : 0 ≤ g.y ∧ g.y < (VIEW_PORT_ROW : Int) ∧ 0 ≤ g.x ∧
      g.x < (VIEW_PORT_COL : Int)) :
    loopBody objects has_colors keys g =
      some (draw_screen has_colors (fillCell objects g.x g.y),
        { array := fillCell objects g.x g.y,
          x := (handle_input keys g.x g.y g.quit).1,
          y := (handle_input keys g.x g.y g.quit).2.1,
          quit := (handle_input keys g.x g.y g.quit).2.2 }) := by
  unfold loopBody
  rw [fill_eq _ _ _ _ h]
  rfl

/-- C10 (as stated, refuted): from the initial coordinate (12,15) with W and A held,
`handle_input` moves the player to (11,14), and the drawing made in that iteration is
not the drawing of `fill` at (11,14). -/
theorem drawn_frame_is_not_post_input :
    handle_input (keysHeld ['W', 'A']) 12 15 false = (11, 14, false) ∧
    (loopBody (fun _ => { x := 3, y := 4 }) false (keysHeld ['W', 'A'])
        (initialGame (fun _ _ => ' '))).map Prod.fst ≠
      (fill (fun _ => { x := 3, y := 4 }) (fun _ _ => ' ') 11 14).map (draw_screen false) := by
  refine ⟨by decide, ?_⟩
  rw [loopBody_eq _ _ _ _ (by decide), fill_eq _ _ _ _ (by decide)]
  simp only [Option.map_some', initialGame, ne_eq, Option.some.injEq]
  intro h
  have h2 := congrFun (congrFun (draw_screen_injective _ _ _ h) ⟨15, by decide⟩)
    ⟨12, by decide⟩
  simp [fillCell] at h2

/-- C10 (amended): in every iteration of the game loop the frame buffer is rebuilt
and drawn before the input is handled: the grid handed to the display in the iteration
is the one `fill` builds at the player coordinate from before this iteration's
`handle_input`, it shows the player glyph at that coordinate, and the values of x, y
and quit after the iteration are those `handle_input` returns. -/
theorem loopBody_draws_pre_input (objects : Fin 10 → Object) (has_colors : Bool)
    (keys : Char → Nat) (g : Game) (i : Fin VIEW_PORT_ROW) (j : Fin VIEW_PORT_COL)
    (hi : (i.val : Int) = g.y) (hj : (j.val : Int) = g.x) :
    ∃ array g', fill objects g.array g.x g.y = some array ∧
      loopBody objects has_colors keys g = some (draw_screen has_colors array, g') ∧
      array i j = '@' ∧ g'.array = array ∧
      (g'.x, g'.y, g'.quit) = handle_input keys g.x g.y g.quit := by
  have hb : 0 ≤ g.y ∧ g.y < (VIEW_PORT_ROW : Int) ∧ 0 ≤ g.x ∧
      g.x < (VIEW_PORT_COL : Int) := by
    have h1 := i.isLt
    have h2 := j.isLt
    refine ⟨by omega, by omega, by omega, by omega⟩
  refine ⟨fillCell objects g.x g.y, _, fill_eq _ _ _ _ hb, loopBody_eq _ _ _ _ hb, ?_,
    rfl, rfl⟩
  simp [fillCell, hi, hj]

/-- Instance of C10 (amended): the first iteration, W and A held; the drawing shows
the player at row 15, column 12 while `handle_input` returns (11,14). -/
theorem loopBody_draws_pre_input_witness :
    ∃ array g', fill (fun _ => { x := 3, y := 4 }) (fun _ _ => ' ') 12 15 = some array ∧
      loopBody (fun _ => { x := 3, y := 4 }) false (keysHeld ['W', 'A'])
        (initialGame (fun _ _ => ' ')) = some (draw_screen false array, g') ∧
      array ⟨15, by decide⟩ ⟨12, by decide⟩ = '@' ∧ g'.array = array ∧
      (g'.x, g'.y, g'.quit) = (11, 14, false) := by
  obtain ⟨array, g', h1, h2, h3, h4, h5⟩ :=
    loopBody_draws_pre_input (fun _ => { x := 3, y := 4 }) false (keysHeld ['W', 'A'])
      (initialGame (fun _ _ => ' ')) ⟨15, by decide⟩ ⟨12, by decide⟩ rfl rfl
  refine ⟨array, g', h1, h2, h3, h4, ?_⟩
  rw [h5]
  decide


/-- From a player in the interior the game loop never makes a store outside the array,
whatever the key states, and it ends with the player in the interior. -/
theorem mainLoop_total (objects : Fin 10 → Object) (has_colors : Bool)
    (inputs : List (Char → Nat)) :
    ∀ g : Game, (1 ≤ g.x ∧ g.x ≤ 198) → (1 ≤ g.y ∧ g.y ≤ 38) →
      ∃ r, mainLoop objects has_colors inputs g = some r ∧
        (1 ≤ r.2.x ∧ r.2.x ≤ 198) ∧ (1 ≤ r.2.y ∧ r.2.y ≤ 38) := by
  induction inputs with
  | nil => intro g hx hy; exact ⟨([], g), rfl, hx, hy⟩
  | cons keys rest ih =>
    intro g hx hy
    rw [mainLoop]
    by_cases hq : g.quit = true
    · rw [if_pos hq]; exact ⟨([], g), rfl, hx, hy⟩
    · rw [if_neg hq, loopBody_eq _ _ _ _
        (by simp only [VIEW_PORT_COL, VIEW_PORT_ROW, Nat.cast_ofNat]; omega)]
      have h := handle_input_interior keys g.x g.y g.quit hx hy
      obtain ⟨r, hr, hrx, hry⟩ := ih
        { array := fillCell objects g.x g.y,
          x := (handle_input keys g.x g.y g.quit).1,
          y := (handle_input keys g.x g.y g.quit).2.1,
          quit := (handle_input keys g.x g.y g.quit).2.2 } ⟨h.1, h.2.1⟩ ⟨h.2.2.1, h.2.2.2⟩
      simp only [Option.some_bind, hr, Option.map_some']
      exact ⟨_, rfl, hrx, hry⟩

/-- Along a whole run of the game loop from a player in the interior, the drawing of
iteration `n` is the one of the grid `fill` builds at the coordinate reached after
the first `n` calls of `handle_input`, that is, before the call of iteration `n`. -/
theorem mainLoop_frames (objects : Fin 10 → Object) (has_colors : Bool)
    (inputs : List (Char → Nat)) :
    ∀ g : Game, (1 ≤ g.x ∧ g.x ≤ 198) → (1 ≤ g.y ∧ g.y ≤ 38) →
      ∃ r, mainLoop objects has_colors inputs g = some r ∧
        ∀ (n : Nat) (hn : n < r.1.length),
          r.1.get ⟨n, hn⟩ = draw_screen has_colors (fillCell objects
            (runInputs (inputs.take n) (g.x, g.y, g.quit)).1
            (runInputs (inputs.take n) (g.x, g.y, g.quit)).2.1) := by
  induction inputs with
  | nil =>
    intro g _ _
    exact ⟨([], g), rfl, fun n hn => absurd hn (by simp)⟩
  | cons keys rest ih =>
    intro g hx hy
    rw [mainLoop]
    by_cases hq : g.quit = true
    · rw [if_pos hq]
      exact ⟨([], g), rfl, fun n hn => absurd hn (by simp)⟩
    · rw [if_neg hq, loopBody_eq _ _ _ _
        (by simp only [VIEW_PORT_COL, VIEW_PORT_ROW, Nat.cast_ofNat]; omega)]
      have h := handle_input_interior keys g.x g.y g.quit hx hy
      obtain ⟨r, hr, hfr⟩ := ih
        { array := fillCell objects g.x g.y,
          x := (handle_input keys g.x g.y g.quit).1,
          y := (handle_input keys g.x g.y g.quit).2.1,
          quit := (handle_input keys g.x g.y g.quit).2.2 } ⟨h.1, h.2.1⟩ ⟨h.2.2.1, h.2.2.2⟩
      simp only [Option.some_bind, hr, Option.map_some']
      refine ⟨_, rfl, ?_⟩
      intro n hn
      cases n with
      | zero => simp [runInputs]
      | succ m =>
        have hm : m < r.1.length := by simpa using hn
        have := hfr m hm
        simpa [runInputs] using this

/-! ## `makeScene` -/

theorem finRange_ten :
    List.finRange 10 = [0, 1, 2, 3, 4, 5, 6, 7, 8, 9] := by rfl

/-- Closed form of `makeScene`: entity `i` gets its x from call `2 i` of `rand()` and
its y from call `2 i + 1`. -/
theorem makeScene_eq (rand : Nat → Int) (objects : Fin 10 → Object) :
    makeScene rand objects =
      fun i => { x := sceneX (rand (2 * i.val)), y := sceneY (rand (2 * i.val + 1)) } := by
  unfold makeScene
  rw [finRange_ten]
  simp only [List.foldl]
  funext i
  fin_cases i <;> simp [Function.update]

theorem sceneX_range (r : Int) (h : 0 ≤ r) :
    1 ≤ sceneX r ∧ sceneX r ≤ (VIEW_PORT_COL : Int) - 2 := by
  unfold sceneX
  have h1 := Int.tmod_nonneg ((VIEW_PORT_COL : Int) - 2) h
  have h2 := Int.tmod_lt_of_pos r (show (0 : Int) < (VIEW_PORT_COL : Int) - 2 by decide)
  omega

theorem sceneY_range (r : Int) (h : 0 ≤ r) :
    1 ≤ sceneY r ∧ sceneY r ≤ (VIEW_PORT_ROW : Int) - 2 := by
  unfold sceneY
  have h1 := Int.tmod_nonneg ((VIEW_PORT_ROW : Int) - 2) h
  have h2 := Int.tmod_lt_of_pos r (show (0 : Int) < (VIEW_PORT_ROW : Int) - 2 by decide)
  omega

/-- C7: for every sequence of non-negative values returned by `rand()`, `makeScene`
assigns all ten entities (the result does not depend on what the array held), each
with 1 ≤ x ≤ COLS-2 and 1 ≤ y ≤ ROWS-2, and the ten coordinates are a function of the
first twenty values of the sequence alone. -/
theorem makeScene_in_interior_and_deterministic (rand : Nat → Int)
    (hr : ∀ n, 0 ≤ rand n) (objects : Fin 10 → Object) :
    (∀ i : Fin 10,
      1 ≤ (makeScene rand objects i).x ∧
      (makeScene rand objects i).x ≤ (VIEW_PORT_COL : Int) - 2 ∧
      1 ≤ (makeScene rand objects i).y ∧
      (makeScene rand objects i).y ≤ (VIEW_PORT_ROW : Int) - 2) ∧
    (∀ (rand' : Nat → Int) (objects' : Fin 10 → Object),
      (∀ n, n < 20 → rand' n = rand n) →
      makeScene rand' objects' = makeScene rand objects) := by
  constructor
  · intro i
    rw [makeScene_eq]
    exact ⟨(sceneX_range _ (hr _)).1, (sceneX_range _ (hr _)).2,
      (sceneY_range _ (hr _)).1, (sceneY_range _ (hr _)).2⟩
  · intro rand' objects' h
    rw [makeScene_eq, makeScene_eq]
    funext i
    have hi := i.isLt
    rw [h (2 * i.val) (by omega), h (2 * i.val + 1) (by omega)]

/-- Instance of C7: `rand()` returning 1000, 1001, 1002, ...; the first entity is
placed at (11,14). -/
theorem makeScene_in_interior_and_deterministic_witness :
    (∀ n : Nat, (0 : Int) ≤ 1000 + (n : Int)) ∧
    (makeScene (fun n => 1000 + (n : Int)) (fun _ => { x := 0, y := 0 }) 0).x = 11 ∧
    (makeScene (fun n => 1000 + (n : Int)) (fun _ => { x := 0, y := 0 }) 0).y = 14 ∧
    1 ≤ (makeScene (fun n => 1000 + (n : Int)) (fun _ => { x := 0, y := 0 }) 0).x := by
  have h := makeScene_in_interior_and_deterministic (fun n => 1000 + (n : Int))
    (fun n => by show (0 : Int) ≤ 1000 + (n : Int); omega) (fun _ => { x := 0, y := 0 })
  refine ⟨fun n => by omega, ?_, ?_, (h.1 0).1⟩
  · rw [makeScene_eq]; decide
  · rw [makeScene_eq]; decide


/-- The grid built by `fill` from the entities `makeScene` places has the border glyph
in every border cell, for every sequence of non-negative `rand()` values and every
player coordinate in the interior. -/
theorem fill_makeScene_border (rand : Nat → Int) (hr : ∀ n, 0 ≤ rand n)
    (objects : Fin 10 → Object) (array : Grid) (x y : Int)
    (hp : 1 ≤ x ∧ x ≤ (VIEW_PORT_COL : Int) - 2 ∧ 1 ≤ y ∧ y ≤ (VIEW_PORT_ROW : Int) - 2)
    (i : Fin VIEW_PORT_ROW) (j : Fin VIEW_PORT_COL)
    (hb : i.val = 0 ∨ i.val = VIEW_PORT_ROW - 1 ∨ j.val = 0 ∨ j.val = VIEW_PORT_COL - 1) :
    (fill (makeScene rand objects) array x y).map (fun g => g i j) = some '#' := by
  rw [fill_eq _ _ _ _ (by simp only [VIEW_PORT_COL, VIEW_PORT_ROW] at hp ⊢; omega)]
  simp only [Option.map_some', Option.some.injEq]
  rw [fillCell_border _ x y hp i j hb, if_neg]
  rintro ⟨k, -, hi, hj⟩
  rw [makeScene_eq] at hi hj
  have hx := sceneX_range (rand (2 * k.val)) (hr _)
  have hy := sceneY_range (rand (2 * k.val + 1)) (hr _)
  have h1 := i.isLt
  have h2 := j.isLt
  simp only [VIEW_PORT_COL, VIEW_PORT_ROW, Nat.cast_ofNat] at hx hy hb h1 h2 hi hj
  omega

/-! ## Distribution of the coordinates of `makeScene` -/

/-- Number of r in 0..RAND_MAX with `1 + r % m = v`, for a value v in [1, m]. -/
theorem count_one_add_tmod (m : Nat) (hm : 0 < m) (RAND_MAX v : Nat)
    (hv : 1 ≤ v ∧ v ≤ m) :
    Nat.count (fun r : Nat => 1 + (r : Int).tmod (m : Int) = (v : Int)) (RAND_MAX + 1) =
      (RAND_MAX + 1) / m + if v - 1 < (RAND_MAX + 1) % m then 1 else 0 := by
  have key : ∀ r : Nat, (1 + (r : Int).tmod (m : Int) = (v : Int)) ↔
      r ≡ v - 1 [MOD m] := by
    intro r
    rw [← Int.ofNat_tmod]
    unfold Nat.ModEq
    have h1 : (v - 1) % m = v - 1 := Nat.mod_eq_of_lt (by omega)
    rw [h1]
    constructor
    · intro h; omega
    · intro h; omega
  have h2 : Nat.count (fun r : Nat => 1 + (r : Int).tmod (m : Int) = (v : Int))
      (RAND_MAX + 1) = Nat.count (fun r : Nat => r ≡ v - 1 [MOD m]) (RAND_MAX + 1) := by
    rw [Nat.count_eq_card_filter_range, Nat.count_eq_card_filter_range]
    congr 1
    exact Finset.filter_congr (fun r _ => key r)
  rw [h2, Nat.count_modEq_card _ hm, Nat.mod_eq_of_lt (show v - 1 < m by omega)]

theorem preimages_sceneX (RAND_MAX v : Nat) (hv : 1 ≤ v ∧ v ≤ VIEW_PORT_COL - 2) :
    preimages sceneX RAND_MAX (v : Int) =
      (RAND_MAX + 1) / (VIEW_PORT_COL - 2) +
        if v - 1 < (RAND_MAX + 1) % (VIEW_PORT_COL - 2) then 1 else 0 := by
  have h := count_one_add_tmod (VIEW_PORT_COL - 2) (by decide) RAND_MAX v hv
  exact h

theorem preimages_sceneY (RAND_MAX v : Nat) (hv : 1 ≤ v ∧ v ≤ VIEW_PORT_ROW - 2) :
    preimages sceneY RAND_MAX (v : Int) =
      (RAND_MAX + 1) / (VIEW_PORT_ROW - 2) +
        if v - 1 < (RAND_MAX + 1) % (VIEW_PORT_ROW - 2) then 1 else 0 := by
  have h := count_one_add_tmod (VIEW_PORT_ROW - 2) (by decide) RAND_MAX v hv
  exact h

/-- C9 (as stated, refuted): with RAND_MAX = 32767 the x value 1 has 166 preimages
and the x value 198 has 165, the y value 1 has 863 and the y value 38 has 862; with
RAND_MAX = 2^31 - 1 the counts of these values differ as well. -/
theorem scene_coordinates_not_uniform :
    preimages sceneX 32767 ((1 : Nat) : Int) = 166 ∧
    preimages sceneX 32767 ((198 : Nat) : Int) = 165 ∧
    preimages sceneY 32767 ((1 : Nat) : Int) = 863 ∧
    preimages sceneY 32767 ((38 : Nat) : Int) = 862 ∧
    preimages sceneX 2147483647 ((1 : Nat) : Int) ≠
      preimages sceneX 2147483647 ((198 : Nat) : Int) ∧
    preimages sceneY 2147483647 ((1 : Nat) : Int) ≠
      preimages sceneY 2147483647 ((38 : Nat) : Int) := by
  have x1 := preimages_sceneX 32767 1 (by decide)
  have x2 := preimages_sceneX 32767 198 (by decide)
  have y1 := preimages_sceneY 32767 1 (by decide)
  have y2 := preimages_sceneY 32767 38 (by decide)
  have x3 := preimages_sceneX 2147483647 1 (by decide)
  have x4 := preimages_sceneX 2147483647 198 (by decide)
  have y3 := preimages_sceneY 2147483647 1 (by decide)
  have y4 := preimages_sceneY 2147483647 38 (by decide)
  refine ⟨?_, ?_, ?_, ?_, ?_, ?_⟩
  · rw [x1]; decide
  · rw [x2]; decide
  · rw [y1]; decide
  · rw [y2]; decide
  · rw [x3, x4]; decide
  · rw [y3, y4]; decide

/-- C9 (amended): with r ranging over 0..RAND_MAX, every x in [1, COLS-2] has
(RAND_MAX+1) div (COLS-2) preimages under 1 + r % (COLS-2), and one more exactly when
x - 1 < (RAND_MAX+1) mod (COLS-2); likewise every y in [1, ROWS-2] under
1 + r % (ROWS-2); hence the numbers of preimages of any two values of an axis differ
by at most one. -/
theorem scene_coordinates_near_uniform (RAND_MAX x x' y y' : Nat)
    (hx : 1 ≤ x ∧ x ≤ VIEW_PORT_COL - 2) (hx' : 1 ≤ x' ∧ x' ≤ VIEW_PORT_COL - 2)
    (hy : 1 ≤ y ∧ y ≤ VIEW_PORT_ROW - 2) (hy' : 1 ≤ y' ∧ y' ≤ VIEW_PORT_ROW - 2) :
    (preimages sceneX RAND_MAX (x : Int) =
      (RAND_MAX + 1) / (VIEW_PORT_COL - 2) +
        if x - 1 < (RAND_MAX + 1) % (VIEW_PORT_COL - 2) then 1 else 0) ∧
    (preimages sceneY RAND_MAX (y : Int) =
      (RAND_MAX + 1) / (VIEW_PORT_ROW - 2) +
        if y - 1 < (RAND_MAX + 1) % (VIEW_PORT_ROW - 2) then 1 else 0) ∧
    preimages sceneX RAND_MAX (x : Int) ≤ preimages sceneX RAND_MAX (x' : Int) + 1 ∧
    preimages sceneY RAND_MAX (y : Int) ≤ preimages sceneY RAND_MAX (y' : Int) + 1 := by
  have h1 := preimages_sceneX RAND_MAX x hx
  have h2 := preimages_sceneX RAND_MAX x' hx'
  have h3 := preimages_sceneY RAND_MAX y hy
  have h4 := preimages_sceneY RAND_MAX y' hy'
  refine ⟨h1, h3, ?_, ?_⟩
  · rw [h1, h2]; split_ifs <;> omega
  · rw [h3, h4]; split_ifs <;> omega

/-- Instance of C9 (amended) at RAND_MAX = 32767: x = 98 has 166 preimages, and that
is at most one more than the number for x = 99; y = 12 has 863. -/
theorem scene_coordinates_near_uniform_witness :
    preimages sceneX 32767 ((98 : Nat) : Int) = 166 ∧
    preimages sceneY 32767 ((12 : Nat) : Int) = 863 ∧
    preimages sceneX 32767 ((98 : Nat) : Int) ≤ preimages sceneX 32767 ((99 : Nat) : Int) + 1 ∧
    preimages sceneY 32767 ((12 : Nat) : Int) ≤
      preimages sceneY 32767 ((13 : Nat) : Int) + 1 := by
  have h := scene_coordinates_near_uniform 32767 98 99 12 13
    (by decide) (by decide) (by decide) (by decide)
  refine ⟨?_, ?_, h.2.2.1, h.2.2.2⟩
  · rw [h.1]; decide
  · rw [h.2.1]; decide

end TerminalGame
